import Mathlib

/-!
Shallow embedding of the sequence value store (src/box/sequence.c) and of the
SQL btree cursor adaptation layer (src/box/sql/btree.c) of the repository,
together with theorems settling the specification claims about them.

Machine integers are embedded as `Int`/`Nat`; the 64-bit bounds appear
explicitly wherever the C code mentions them.  Assertions compiled out in
release builds (`assert`, `unreachable`) are not given runtime behaviour; the
conditions they document appear as hypotheses of the theorems instead.
-/

/-- Largest signed 64-bit integer, `INT64_MAX` of `<stdint.h>`. -/
def INT64_MAX : Int := 9223372036854775807

/-- Smallest signed 64-bit integer, `INT64_MIN` of `<stdint.h>`. -/
def INT64_MIN : Int := -9223372036854775808

/-- Largest unsigned 64-bit integer, `UINT64_MAX` of `<stdint.h>`. -/
def UINT64_MAX : Nat := 18446744073709551615

/-- `struct sequence_def` (read-only schema data consumed by sequence.c):
id, display name, start, min, max, step and cycle flag, plus the owner uid. -/
structure SequenceDef where
  id : Nat
  name : String
  start : Int
  min : Int
  max : Int
  step : Int
  cycle : Bool
  uid : Nat

/-- Modelled from the spec: the open-addressing hash index of `salad/light.h`
(not among the surveyed sources) keyed by sequence id.  Per the spec it keeps
at most one record per id with deterministic lookup, so it is embedded as a
map from id to optional stored value.  Pool allocation is not modelled, so
insertion always succeeds (the `OutOfMemory` path is out of scope here). -/
def SeqIndex : Type := Nat → Option Int

/-- `light_sequence_find_key`: point lookup by sequence id. -/
def light_sequence_find_key (idx : SeqIndex) (key : Nat) : Option Int :=
  idx key

/-- `light_sequence_insert`: add the record for a key that is absent. -/
def light_sequence_insert (idx : SeqIndex) (key : Nat) (value : Int) : SeqIndex :=
  fun k => if k = key then some value else idx k

/-- `light_sequence_replace`: overwrite the record stored under a key. -/
def light_sequence_replace (idx : SeqIndex) (key : Nat) (value : Int) : SeqIndex :=
  fun k => if k = key then some value else idx k

/-- `light_sequence_delete`: remove the record stored under a key. -/
def light_sequence_delete (idx : SeqIndex) (key : Nat) : SeqIndex :=
  fun k => if k = key then none else idx k

/-- Failure of a sequence operation: `ER_SEQUENCE_OVERFLOW` carrying the
sequence's display name (`diag_set(ClientError, ER_SEQUENCE_OVERFLOW,
def->name)` in `sequence_next`). -/
inductive SeqErr where
  | overflow (name : String)
deriving DecidableEq

/-- The `done:` label of `sequence_next`: persist `value` by replace and
return it. -/
def seqNextDone (d : SequenceDef) (idx : SeqIndex) (value : Int) :
    Except SeqErr Int × SeqIndex :=
  (Except.ok value, light_sequence_replace idx d.id value)

/-- The `overflow:` label of `sequence_next`: without `cycle` fail with
`SequenceOverflow` leaving the index untouched; with `cycle` wrap to `min`
(ascending) or `max` (descending) and continue at `done:`. -/
def seqNextOverflow (d : SequenceDef) (idx : SeqIndex) :
    Except SeqErr Int × SeqIndex :=
  if d.cycle = false then (Except.error (SeqErr.overflow d.name), idx)
  else seqNextDone d idx (if d.step > 0 then d.min else d.max)

/-- `sequence_next` of sequence.c.  The result is the pair of the returned
value (or the overflow error) and the post-call state of the data index. -/
def sequence_next (d : SequenceDef) (idx : SeqIndex) :
    Except SeqErr Int × SeqIndex :=
  match light_sequence_find_key idx d.id with
  | none => (Except.ok d.start, light_sequence_insert idx d.id d.start)
  | some value =>
    if d.step > 0 then
      if value < d.min then seqNextDone d idx d.min
      else if value ≥ 0 ∧ d.step > INT64_MAX - value then seqNextOverflow d idx
      else if value + d.step > d.max then seqNextOverflow d idx
      else seqNextDone d idx (value + d.step)
    else
      if value > d.max then seqNextDone d idx d.max
      else if value < 0 ∧ d.step < INT64_MIN - value then seqNextOverflow d idx
      else if value + d.step < d.min then seqNextOverflow d idx
      else seqNextDone d idx (value + d.step)

/-- Wrap an exact integer to the signed 64-bit value a two's-complement
machine addition would produce. -/
def wrap64 (x : Int) : Int :=
  (x + 2 ^ 63) % 2 ^ 64 - 2 ^ 63

/-- `sequence_next` re-read with machine semantics: identical to
`sequence_next` except that the one arithmetic step the C code performs,
`value += def->step`, is evaluated with wrapping 64-bit addition. -/
def sequence_next_wrap (d : SequenceDef) (idx : SeqIndex) :
    Except SeqErr Int × SeqIndex :=
  match light_sequence_find_key idx d.id with
  | none => (Except.ok d.start, light_sequence_insert idx d.id d.start)
  | some value =>
    if d.step > 0 then
      if value < d.min then seqNextDone d idx d.min
      else if value ≥ 0 ∧ d.step > INT64_MAX - value then seqNextOverflow d idx
      else if wrap64 (value + d.step) > d.max then seqNextOverflow d idx
      else seqNextDone d idx (wrap64 (value + d.step))
    else
      if value > d.max then seqNextDone d idx d.max
      else if value < 0 ∧ d.step < INT64_MIN - value then seqNextOverflow d idx
      else if wrap64 (value + d.step) < d.min then seqNextOverflow d idx
      else seqNextDone d idx (wrap64 (value + d.step))

/-- `sequence_update` of sequence.c: install `value` only if it strictly
extends the stored value in the direction of travel; install unconditionally
when no record exists. -/
def sequence_update (d : SequenceDef) (idx : SeqIndex) (value : Int) : SeqIndex :=
  match light_sequence_find_key idx d.id with
  | some data =>
    if (d.step > 0 ∧ value > data) ∨ (d.step < 0 ∧ value < data) then
      light_sequence_replace idx d.id value
    else
      idx
  | none => light_sequence_insert idx d.id value

/-- `sequence_set` of sequence.c: unconditional replace-or-insert. -/
def sequence_set (d : SequenceDef) (idx : SeqIndex) (value : Int) : SeqIndex :=
  light_sequence_replace idx d.id value

/-- `sequence_reset` of sequence.c: delete the record if present. -/
def sequence_reset (d : SequenceDef) (idx : SeqIndex) : SeqIndex :=
  light_sequence_delete idx d.id

/-- The definition of the worked spec example,
`{start=1, min=1, max=3, step=1}`, with a chosen cycle flag. -/
def exDef (cyc : Bool) : SequenceDef :=
  { id := 1, name := "seq", start := 1, min := 1, max := 3, step := 1,
    cycle := cyc, uid := 0 }

/-- The empty sequence data index. -/
def exIdx0 : SeqIndex := fun _ => none

/-- Index state after the first `next` call of the example (stored value 1). -/
def exIdx1 : SeqIndex := light_sequence_insert exIdx0 1 1

/-- Index state after the second `next` call of the example (stored value 2). -/
def exIdx2 : SeqIndex := light_sequence_replace exIdx1 1 2

/-- Index state after the third `next` call of the example (stored value 3). -/
def exIdx3 : SeqIndex := light_sequence_replace exIdx2 1 3

/-- Modelled from the spec: the "usage" privilege bit `PRIV_U` of the schema
privilege mask (the privilege enum lives outside the surveyed sources); only
its identity as one fixed bit of a `u8` mask matters here. -/
def PRIV_U : Nat := 16

/-- Modelled from the spec: the "write" privilege bit `PRIV_W` of the schema
privilege mask, a fixed bit distinct from `PRIV_U`. -/
def PRIV_W : Nat := 2

/-- The privileges `access_check_sequence` demands: `PRIV_U | PRIV_W`. -/
def required_access : Nat := PRIV_U ||| PRIV_W

/-- The caller identity consulted by `access_check_sequence` via
`current_user()`: uid, auth token, and universal privilege mask. -/
structure Credentials where
  uid : Nat
  auth_token : Nat
  universal_access : Nat

/-- The slice of `struct sequence` that `access_check_sequence` reads: the
owner uid and display name from the definition and the per-auth-token
effective access masks (`seq->access[token].effective`). -/
structure SequenceAcl where
  uid : Nat
  name : String
  access : Nat → Nat

/-- Complement of a `u8` mask, the `~` applied to the effective access byte. -/
def compl8 (x : Nat) : Nat := 255 ^^^ (x % 256)

/-- `masked_access` of `access_check_sequence`:
`access ^ (access & cr->universal_access)`, the part of the required
privileges not already granted universally. -/
def masked_access (cr : Credentials) : Nat :=
  required_access ^^^ (required_access &&& cr.universal_access)

/-- The `AccessDeniedError` diagnostics `access_check_sequence` can set:
either the universe branch (no `PRIV_U` on the universe at all) or the
sequence branch (missing privilege on this sequence), each naming the
offending principal. -/
inductive AccessDiag where
  | universeDenied (priv : Nat) (userName : String)
  | sequenceDenied (priv : Nat) (objName : String) (userName : String)
deriving DecidableEq

/-- `access_check_sequence` of sequence.c.  `foundUser` is the result of the
external `user_find(cr->uid)` lookup (the name of the resolved principal, if
any).  On failure the error carries the diagnostic that was set, or `none`
when `user_find` resolved no user and the code set no diagnostic.  The
`printf` of `masked_access` in the source writes to stdout only and is not
modelled. -/
def access_check_sequence (seq : SequenceAcl) (cr : Credentials)
    (foundUser : Option String) : Except (Option AccessDiag) Unit :=
  if seq.uid ≠ cr.uid ∧
      masked_access cr &&& compl8 (seq.access cr.auth_token) ≠ 0 then
    Except.error
      (match foundUser with
       | none => none
       | some uname =>
         if cr.universal_access &&& PRIV_U = 0 then
           some (AccessDiag.universeDenied PRIV_U uname)
         else
           some (AccessDiag.sequenceDenied required_access seq.name uname))
  else
    Except.ok ()

/-- Big-endian byte string of the `w` low-order bytes of `n`. -/
def beBytes : Nat → Nat → List Nat
  | 0, _ => []
  | w + 1, n => beBytes w (n / 256) ++ [n % 256]

/-- Modelled from the spec: `mp_encode_array` of msgpuck (external library),
the msgpack serialization of an array header. -/
def mp_encode_array (n : Nat) : List Nat :=
  if n ≤ 15 then [144 + n]
  else if n ≤ 65535 then [220] ++ beBytes 2 n
  else [221] ++ beBytes 4 n

/-- Modelled from the spec: `mp_encode_uint` of msgpuck (external library),
the msgpack serialization of an unsigned integer. -/
def mp_encode_uint (v : Nat) : List Nat :=
  if v ≤ 127 then [v]
  else if v ≤ 255 then [204, v]
  else if v ≤ 65535 then [205] ++ beBytes 2 v
  else if v ≤ 4294967295 then [206] ++ beBytes 4 v
  else [207] ++ beBytes 8 v

/-- Modelled from the spec: `mp_encode_int` of msgpuck (external library),
the msgpack serialization of a negative integer (two's-complement bytes). -/
def mp_encode_int (v : Int) : List Nat :=
  if v ≥ -32 then [(v % 256).toNat]
  else if v ≥ -128 then [208, (v % 256).toNat]
  else if v ≥ -32768 then [209] ++ beBytes 2 (v % 65536).toNat
  else if v ≥ -2147483648 then [210] ++ beBytes 4 (v % 4294967296).toNat
  else [211] ++ beBytes 8 (v % 18446744073709551616).toNat

/-- Modelled from the spec: `mp_sizeof_array` of msgpuck (external library). -/
def mp_sizeof_array (n : Nat) : Nat :=
  if n ≤ 15 then 1 else if n ≤ 65535 then 3 else 5

/-- Modelled from the spec: `mp_sizeof_uint` of msgpuck (external library). -/
def mp_sizeof_uint (v : Nat) : Nat :=
  if v ≤ 127 then 1
  else if v ≤ 255 then 2
  else if v ≤ 65535 then 3
  else if v ≤ 4294967295 then 5
  else 9

/-- `SEQUENCE_TUPLE_BUF_SIZE` of sequence.c: the per-record buffer bound
`mp_sizeof_array(2) + 2 * mp_sizeof_uint(UINT64_MAX)` computed once. -/
def SEQUENCE_TUPLE_BUF_SIZE : Nat :=
  mp_sizeof_array 2 + 2 * mp_sizeof_uint UINT64_MAX

/-- The bytes `sequence_data_iterator_next` writes into `iter->tuple` for one
record: a 2-element array of the id (unsigned) and the value (unsigned when
non-negative, signed encoding otherwise). -/
def sequence_data_tuple (id : Nat) (value : Int) : List Nat :=
  mp_encode_array 2 ++ mp_encode_uint id ++
    (if value ≥ 0 then mp_encode_uint value.toNat else mp_encode_int value)

/-- `Btree.inTrans`: `TRANS_NONE`, `TRANS_READ` or `TRANS_WRITE`. -/
inductive TransState where
  | trNone
  | trRead
  | trWrite
deriving DecidableEq

/-- The slice of `struct Btree` the cursor-opening paths read: the
transaction state and whether this handle is the main Tarantool-backed
database (`p->db->mdb.pBt == p`). -/
structure Btree where
  inTrans : TransState
  isMainDb : Bool

/-- `BtCursor.eState`: the five `CURSOR_XXX` constants. -/
inductive CursorEState where
  | invalid
  | valid
  | skipnext
  | requireseek
  | fault
deriving DecidableEq

/-- The slice of `struct BtCursor` exercised by the embedded operations:
root page, presence of a key-comparison context (`pKeyInfo`), validity
state, backend flag byte and the `skipNext` field that doubles as the
stored fault code. -/
structure BtCursor where
  pgnoRoot : Nat
  hasKeyInfo : Bool
  eState : CursorEState
  curFlags : Nat
  skipNext : Int

/-- `BTCF_TaCursor`: cursor backed by the persistent Tarantool engine. -/
def BTCF_TaCursor : Nat := 128

/-- `BTCF_TEphemCursor`: cursor backed by an ephemeral table. -/
def BTCF_TEphemCursor : Nat := 64

/-- `SQLITE_OK` result code. -/
def SQLITE_OK : Int := 0

/-- `SQLITE_CORRUPT`, the code produced by `SQLITE_CORRUPT_BKPT`. -/
def SQLITE_CORRUPT : Int := 11

/-- Modelled from the spec: `SQLITE_TARANTOOL_ERROR` (defined in the external
tarantoolInt.h), the code of the defensive unreachable-backend fallthroughs;
only its distinctness from `SQLITE_OK` matters here. -/
def SQLITE_TARANTOOL_ERROR : Int := 70

/-- `btreeCursor` of btree.c: fill in the cursor fields and put it into the
`CURSOR_INVALID` state.  The cast `(Pgno) iTable` is the `u32` reduction.
The asserted preconditions (valid `wrFlag`, `p->inTrans > TRANS_NONE`) are
stated as hypotheses of the theorems. -/
def btreeCursor (p : Btree) (iTable : Int) (wrFlag : Nat) (hasKeyInfo : Bool)
    (c : BtCursor) : BtCursor :=
  { c with
    pgnoRoot := (iTable % 4294967296).toNat
    hasKeyInfo := hasKeyInfo
    eState := CursorEState.invalid }

/-- `sqlite3BtreeCursor` of btree.c: reject `iTable < 1` with
`SQLITE_CORRUPT`, otherwise open via `btreeCursor` and, for the main
Tarantool-backed database, tag the cursor with `BTCF_TaCursor`. -/
def sqlite3BtreeCursor (p : Btree) (iTable : Int) (wrFlag : Nat)
    (hasKeyInfo : Bool) (c : BtCursor) : Int × BtCursor :=
  if iTable < 1 then (SQLITE_CORRUPT, c)
  else
    let c1 := btreeCursor p iTable wrFlag hasKeyInfo c
    if p.isMainDb then
      (SQLITE_OK, { c1 with curFlags := c1.curFlags ||| BTCF_TaCursor })
    else
      (SQLITE_OK, c1)

/-- `sqlite3BtreeCursorEphemeral` of btree.c: open via `btreeCursor` with no
root-id validation, tag with `BTCF_TEphemCursor` and return `SQLITE_OK`
unconditionally. -/
def sqlite3BtreeCursorEphemeral (p : Btree) (iTable : Int) (wrFlag : Nat)
    (hasKeyInfo : Bool) (c : BtCursor) : Int × BtCursor :=
  let c1 := btreeCursor p iTable wrFlag hasKeyInfo c
  (SQLITE_OK, { c1 with curFlags := c1.curFlags ||| BTCF_TEphemCursor })

/-- `sqlite3BtreeInsert` of btree.c: short-circuit with the stored fault code
when the cursor is in `CURSOR_FAULT`, otherwise dispatch on the backend flag.
`taRes`/`ephRes` stand for the results of the opaque backend calls
`tarantoolSqlite3Insert`/`tarantoolSqlite3EphemeralInsert`. -/
def sqlite3BtreeInsert (c : BtCursor) (taRes ephRes : Int) : Int :=
  if c.eState = CursorEState.fault then c.skipNext
  else if c.curFlags &&& BTCF_TaCursor ≠ 0 then taRes
  else if c.curFlags &&& BTCF_TEphemCursor ≠ 0 then ephRes
  else SQLITE_TARANTOOL_ERROR

/-- `sqlite3BtreeDelete` of btree.c: dispatch on the backend flag with no
`CURSOR_FAULT` check (its `assert(pCur->eState == CURSOR_VALID)` is
compiled out in release builds).  `taRes`/`ephRes` stand for the results of
the opaque backend calls `tarantoolSqlite3Delete`/
`tarantoolSqlite3EphemeralDelete`. -/
def sqlite3BtreeDelete (c : BtCursor) (taRes ephRes : Int) : Int :=
  if c.curFlags &&& BTCF_TaCursor ≠ 0 then taRes
  else if c.curFlags &&& BTCF_TEphemCursor ≠ 0 then ephRes
  else SQLITE_TARANTOOL_ERROR

/-- A cursor stuck in `CURSOR_FAULT` with stored fault code 5, tagged as a
persistent-backend cursor. -/
def faultCursor : BtCursor :=
  { pgnoRoot := 2, hasKeyInfo := false, eState := CursorEState.fault,
    curFlags := BTCF_TaCursor, skipNext := 5 }

/-- The definition used to exhibit the clamp/overflow interaction:
`{start=1, min=1, max=3, step=5, cycle=false}`. -/
def cexDef : SequenceDef :=
  { id := 1, name := "seq", start := 1, min := 1, max := 3, step := 5,
    cycle := false, uid := 0 }

/-- A state for `cexDef` whose stored value 0 lies below `min`, as an
external `sequence_set` call can produce. -/
def cexIdx : SeqIndex := sequence_set cexDef exIdx0 0

theorem wrap64_eq (x : Int) (h1 : INT64_MIN ≤ x) (h2 : x ≤ INT64_MAX) :
    wrap64 x = x := by
  simp only [wrap64, INT64_MIN, INT64_MAX] at *
  omega

/-- Claim C3: when the stored value lies outside the range against the
direction of travel (below `min` for an ascending sequence, above `max` for
a descending one), `sequence_next` clamps to the nearer bound, stores the
clamp and returns it without adding `step`. -/
theorem sequence_next_clamp (d : SequenceDef) (idx : SeqIndex) (value : Int)
    (hfind : light_sequence_find_key idx d.id = some value) :
    (0 < d.step ∧ value < d.min →
      sequence_next d idx =
        (Except.ok d.min, light_sequence_replace idx d.id d.min)) ∧
    (d.step < 0 ∧ d.max < value →
      sequence_next d idx =
        (Except.ok d.max, light_sequence_replace idx d.id d.max)) := by
  constructor
  · rintro ⟨hs, hv⟩
    simp only [sequence_next, hfind]
    rw [if_pos hs, if_pos hv]
    rfl
  · rintro ⟨hs, hv⟩
    simp only [sequence_next, hfind]
    rw [if_neg (by omega : ¬ d.step > 0), if_pos hv]
    rfl

/-- Witness for `sequence_next_clamp` at a concrete input: stored value −7
below `min = 1` of the ascending example definition is clamped to 1. -/
theorem sequence_next_clamp_w :
    sequence_next (exDef false) (sequence_set (exDef false) exIdx0 (-7)) =
      (Except.ok 1,
        light_sequence_replace (sequence_set (exDef false) exIdx0 (-7)) 1 1) :=
  (sequence_next_clamp (exDef false) (sequence_set (exDef false) exIdx0 (-7))
    (-7) rfl).1 (by decide)

/-- Claim C4: `sequence_update` installs a value only when it strictly
extends the sequence in its direction of travel, leaves the stored value
unchanged otherwise, and installs unconditionally when no record exists. -/
theorem sequence_update_extension (d : SequenceDef) (idx : SeqIndex) (v : Int) :
    (light_sequence_find_key idx d.id = none →
      sequence_update d idx v = light_sequence_insert idx d.id v) ∧
    (∀ cur, light_sequence_find_key idx d.id = some cur →
      (0 < d.step →
        sequence_update d idx v =
          (if cur < v then light_sequence_replace idx d.id v else idx)) ∧
      (d.step < 0 →
        sequence_update d idx v =
          (if v < cur then light_sequence_replace idx d.id v else idx))) := by
  constructor
  · intro h
    simp only [sequence_update, h]
  · intro cur h
    constructor
    · intro hs
      simp only [sequence_update, h]
      by_cases hc : cur < v
      · rw [if_pos (Or.inl ⟨hs, hc⟩), if_pos hc]
      · rw [if_neg (by rintro (⟨_, h2⟩ | ⟨h1, _⟩) <;> omega), if_neg hc]
    · intro hs
      simp only [sequence_update, h]
      by_cases hc : v < cur
      · rw [if_pos (Or.inr ⟨hs, hc⟩), if_pos hc]
      · rw [if_neg (by rintro (⟨h1, _⟩ | ⟨_, h2⟩) <;> omega), if_neg hc]

/-- Witness for `sequence_update_extension` at a concrete input: with stored
value 3 in the ascending example, updating to 2 changes nothing. -/
theorem sequence_update_extension_w :
    sequence_update (exDef false) exIdx3 2 = exIdx3 := by
  have h := ((sequence_update_extension (exDef false) exIdx3 2).2 3 rfl).1
    (by decide)
  simpa using h

/-- Counterexample to claim C1 as stated: for
`cexDef = {start=1, min=1, max=3, step=5, cycle=false}` with stored value 0,
adding `step` would exceed `max` (0 + 5 > 3), yet `sequence_next` does not
fail with `SequenceOverflow` — the clamp branch fires first, returning 1 and
storing it. -/
theorem sequence_next_overflow_no_cycle_cex :
    cexDef.cycle = false ∧
    light_sequence_find_key cexIdx cexDef.id = some 0 ∧
    0 < cexDef.step ∧ cexDef.max < 0 + cexDef.step ∧
    sequence_next cexDef cexIdx =
      (Except.ok 1, light_sequence_replace cexIdx 1 1) :=
  ⟨rfl, rfl, by decide, by decide, rfl⟩

/-- Claim C1, amended: provided the stored value does not trigger the clamp
branch (it is at least `min` for an ascending sequence, at most `max` for a
descending one), a step that would leave the range makes `sequence_next`
fail with `SequenceOverflow` and leaves the stored value untouched; and the
worked example `{start=1, min=1, max=3, step=1, cycle=false}` yields 1, 2, 3
and then fails with the stored value still 3. -/
theorem sequence_next_overflow_no_cycle :
    (∀ (d : SequenceDef) (idx : SeqIndex) (value : Int),
      light_sequence_find_key idx d.id = some value → d.cycle = false →
      ((0 < d.step ∧ d.min ≤ value ∧ d.max < value + d.step) ∨
       (d.step < 0 ∧ value ≤ d.max ∧ value + d.step < d.min)) →
      sequence_next d idx = (Except.error (SeqErr.overflow d.name), idx)) ∧
    sequence_next (exDef false) exIdx0 = (Except.ok 1, exIdx1) ∧
    sequence_next (exDef false) exIdx1 = (Except.ok 2, exIdx2) ∧
    sequence_next (exDef false) exIdx2 = (Except.ok 3, exIdx3) ∧
    sequence_next (exDef false) exIdx3 =
      (Except.error (SeqErr.overflow "seq"), exIdx3) ∧
    light_sequence_find_key exIdx3 (exDef false).id = some 3 := by
  refine ⟨?_, rfl, rfl, rfl, rfl, rfl⟩
  rintro d idx value hfind hcyc (⟨hs, hlo, hof⟩ | ⟨hs, hhi, hof⟩)
  · simp only [sequence_next, hfind]
    rw [if_pos hs, if_neg (by omega : ¬ value < d.min)]
    by_cases hg : value ≥ 0 ∧ d.step > INT64_MAX - value
    · rw [if_pos hg]
      simp only [seqNextOverflow]
      rw [if_pos hcyc]
    · rw [if_neg hg, if_pos (by omega : value + d.step > d.max)]
      simp only [seqNextOverflow]
      rw [if_pos hcyc]
  · simp only [sequence_next, hfind]
    rw [if_neg (by omega : ¬ d.step > 0),
      if_neg (by omega : ¬ value > d.max)]
    by_cases hg : value < 0 ∧ d.step < INT64_MIN - value
    · rw [if_pos hg]
      simp only [seqNextOverflow]
      rw [if_pos hcyc]
    · rw [if_neg hg, if_pos (by omega : value + d.step < d.min)]
      simp only [seqNextOverflow]
      rw [if_pos hcyc]

/-- Witness for `sequence_next_overflow_no_cycle` at a concrete input: the
fourth call of the example fails and leaves the stored value at 3. -/
theorem sequence_next_overflow_no_cycle_w :
    sequence_next (exDef false) exIdx3 =
      (Except.error (SeqErr.overflow "seq"), exIdx3) :=
  sequence_next_overflow_no_cycle.1 (exDef false) exIdx3 3 rfl rfl
    (Or.inl (by decide))

/-- Claim C2: with `cycle=true` an overflowing step wraps to `min`
(ascending) or `max` (descending), which is returned and stored; in the
worked example the fourth call yields 1, the value following `max`. -/
theorem sequence_next_overflow_cycle :
    (∀ (d : SequenceDef) (idx : SeqIndex) (value : Int),
      light_sequence_find_key idx d.id = some value → d.cycle = true →
      (0 < d.step → d.max < value + d.step →
        sequence_next d idx =
          (Except.ok d.min, light_sequence_replace idx d.id d.min)) ∧
      (d.step < 0 → value + d.step < d.min →
        sequence_next d idx =
          (Except.ok d.max, light_sequence_replace idx d.id d.max))) ∧
    sequence_next (exDef true) exIdx0 = (Except.ok 1, exIdx1) ∧
    sequence_next (exDef true) exIdx1 = (Except.ok 2, exIdx2) ∧
    sequence_next (exDef true) exIdx2 = (Except.ok 3, exIdx3) ∧
    sequence_next (exDef true) exIdx3 =
      (Except.ok 1, light_sequence_replace exIdx3 1 1) := by
  refine ⟨?_, rfl, rfl, rfl, rfl⟩
  intro d idx value hfind hcyc
  constructor
  · intro hs hof
    simp only [sequence_next, hfind]
    rw [if_pos hs]
    by_cases hv : value < d.min
    · rw [if_pos hv]
      rfl
    · rw [if_neg hv]
      have hcy : ¬ d.cycle = false := by simp [hcyc]
      by_cases hg : value ≥ 0 ∧ d.step > INT64_MAX - value
      · rw [if_pos hg]
        simp only [seqNextOverflow]
        rw [if_neg hcy, if_pos hs]
        rfl
      · rw [if_neg hg, if_pos (by omega : value + d.step > d.max)]
        simp only [seqNextOverflow]
        rw [if_neg hcy, if_pos hs]
        rfl
  · intro hs hof
    simp only [sequence_next, hfind]
    rw [if_neg (by omega : ¬ d.step > 0)]
    by_cases hv : value > d.max
    · rw [if_pos hv]
      rfl
    · rw [if_neg hv]
      have hcy : ¬ d.cycle = false := by simp [hcyc]
      by_cases hg : value < 0 ∧ d.step < INT64_MIN - value
      · rw [if_pos hg]
        simp only [seqNextOverflow]
        rw [if_neg hcy, if_neg (by omega : ¬ d.step > 0)]
        rfl
      · rw [if_neg hg, if_pos (by omega : value + d.step < d.min)]
        simp only [seqNextOverflow]
        rw [if_neg hcy, if_neg (by omega : ¬ d.step > 0)]
        rfl

/-- Witness for `sequence_next_overflow_cycle` at a concrete input: the
fourth call of the cycling example wraps to 1. -/
theorem sequence_next_overflow_cycle_w :
    sequence_next (exDef true) exIdx3 =
      (Except.ok 1, light_sequence_replace exIdx3 1 1) :=
  (sequence_next_overflow_cycle.1 (exDef true) exIdx3 3 rfl rfl).1
    (by decide) (by decide)

/-- Claim C9: in `sequence_next` the guards divert to the overflow branch
before any addition whose exact result would leave the signed 64-bit range,
so the machine-arithmetic reading `sequence_next_wrap` agrees with the
exact-arithmetic reading on every representable state. -/
theorem sequence_next_no_wraparound (d : SequenceDef) (idx : SeqIndex)
    (value : Int)
    (hfind : light_sequence_find_key idx d.id = some value)
    (hs1 : INT64_MIN ≤ d.step) (hs2 : d.step ≤ INT64_MAX)
    (hv1 : INT64_MIN ≤ value) (hv2 : value ≤ INT64_MAX) :
    ((0 < d.step → ¬ value < d.min →
        ¬ (value ≥ 0 ∧ d.step > INT64_MAX - value) →
        INT64_MIN ≤ value + d.step ∧ value + d.step ≤ INT64_MAX) ∧
     (d.step < 0 → ¬ d.max < value →
        ¬ (value < 0 ∧ d.step < INT64_MIN - value) →
        INT64_MIN ≤ value + d.step ∧ value + d.step ≤ INT64_MAX)) ∧
    sequence_next_wrap d idx = sequence_next d idx := by
  refine ⟨⟨?_, ?_⟩, ?_⟩
  · intro h1 h2 h3
    simp only [INT64_MIN, INT64_MAX] at hs1 hs2 hv1 hv2 h3 ⊢
    omega
  · intro h1 h2 h3
    simp only [INT64_MIN, INT64_MAX] at hs1 hs2 hv1 hv2 h3 ⊢
    omega
  · simp only [sequence_next, sequence_next_wrap, hfind]
    by_cases hs : d.step > 0
    · rw [if_pos hs, if_pos hs]
      by_cases hv : value < d.min
      · rw [if_pos hv, if_pos hv]
      · rw [if_neg hv, if_neg hv]
        by_cases hg : value ≥ 0 ∧ d.step > INT64_MAX - value
        · rw [if_pos hg, if_pos hg]
        · rw [if_neg hg, if_neg hg]
          have hw : wrap64 (value + d.step) = value + d.step := by
            apply wrap64_eq
            · simp only [INT64_MIN, INT64_MAX] at hs1 hs2 hv1 hv2 hg ⊢
              omega
            · simp only [INT64_MIN, INT64_MAX] at hs1 hs2 hv1 hv2 hg ⊢
              omega
          rw [hw]
    · rw [if_neg hs, if_neg hs]
      by_cases hv : value > d.max
      · rw [if_pos hv, if_pos hv]
      · rw [if_neg hv, if_neg hv]
        by_cases hg : value < 0 ∧ d.step < INT64_MIN - value
        · rw [if_pos hg, if_pos hg]
        · rw [if_neg hg, if_neg hg]
          have hw : wrap64 (value + d.step) = value + d.step := by
            apply wrap64_eq
            · simp only [INT64_MIN, INT64_MAX] at hs1 hs2 hv1 hv2 hg hs ⊢
              omega
            · simp only [INT64_MIN, INT64_MAX] at hs1 hs2 hv1 hv2 hg hs ⊢
              omega
          rw [hw]

/-- Witness for `sequence_next_no_wraparound` at a concrete input: the
machine and exact readings agree on the example state with stored value 1. -/
theorem sequence_next_no_wraparound_w :
    sequence_next_wrap (exDef false) exIdx1 = sequence_next (exDef false) exIdx1 :=
  (sequence_next_no_wraparound (exDef false) exIdx1 1 rfl (by decide)
    (by decide) (by decide) (by decide)).2

/-- A sequence owned by uid 1 granting no effective privileges. -/
def cexSeqAcl : SequenceAcl := { uid := 1, name := "s", access := fun _ => 0 }

/-- A caller with uid 2 and no universal privileges. -/
def cexCr : Credentials := { uid := 2, auth_token := 0, universal_access := 0 }

/-- A sequence owned by uid 4 granting no effective privileges. -/
def ownSeqAcl : SequenceAcl := { uid := 4, name := "t", access := fun _ => 0 }

/-- A caller with uid 4 (the owner of `ownSeqAcl`) and no universal
privileges. -/
def ownCr : Credentials := { uid := 4, auth_token := 0, universal_access := 0 }

/-- Counterexample to claim C5 as stated: when the external `user_find`
lookup resolves no user (the principal was dropped), the check still fails
for a non-owner without privileges, but no `AccessDenied` diagnostic is
produced — the `if (user != NULL)` guard skips `diag_set`. -/
theorem access_check_sequence_no_diag_cex :
    access_check_sequence cexSeqAcl cexCr none = Except.error none := rfl

/-- Claim C5, amended: `access_check_sequence` succeeds exactly when the
masked requirement is empty (universal usage+write), the caller owns the
sequence, or the remaining required privileges are held effectively on the
sequence; and whenever it fails *and the principal can be resolved*, the
diagnostic distinguishes a missing universe privilege from a missing
sequence privilege and names the principal. -/
theorem access_check_sequence_spec (seq : SequenceAcl) (cr : Credentials)
    (u : Option String) :
    (access_check_sequence seq cr u = Except.ok () ↔
      (masked_access cr = 0 ∨ seq.uid = cr.uid ∨
       masked_access cr &&& compl8 (seq.access cr.auth_token) = 0)) ∧
    (∀ uname d, u = some uname →
      access_check_sequence seq cr u = Except.error d →
      d = (if cr.universal_access &&& PRIV_U = 0 then
            some (AccessDiag.universeDenied PRIV_U uname)
          else
            some (AccessDiag.sequenceDenied required_access seq.name uname))) := by
  constructor
  · unfold access_check_sequence
    by_cases hc : seq.uid ≠ cr.uid ∧
        masked_access cr &&& compl8 (seq.access cr.auth_token) ≠ 0
    · rw [if_pos hc]
      constructor
      · intro h
        exact absurd h (by simp)
      · rintro (h | h | h)
        · exact absurd (by rw [h]; exact Nat.zero_and _) hc.2
        · exact absurd h hc.1
        · exact absurd h hc.2
    · rw [if_neg hc]
      refine ⟨fun _ => ?_, fun _ => rfl⟩
      by_cases h1 : seq.uid = cr.uid
      · exact Or.inr (Or.inl h1)
      · refine Or.inr (Or.inr ?_)
        by_contra h2
        exact hc ⟨h1, h2⟩
  · intro uname d hu herr
    subst hu
    unfold access_check_sequence at herr
    by_cases hc : seq.uid ≠ cr.uid ∧
        masked_access cr &&& compl8 (seq.access cr.auth_token) ≠ 0
    · rw [if_pos hc] at herr
      simpa using herr.symm
    · rw [if_neg hc] at herr
      exact absurd herr (by simp)

/-- Witness for `access_check_sequence_spec` at a concrete input: the owner
of a sequence passes the check with no privileges granted at all. -/
theorem access_check_sequence_spec_w :
    access_check_sequence ownSeqAcl ownCr (some "bob") = Except.ok () :=
  (access_check_sequence_spec ownSeqAcl ownCr (some "bob")).1.mpr
    (Or.inr (Or.inl rfl))

/-- Claim C6: under an active transaction (and a write transaction for a
write cursor, the precondition the source asserts and documents), opening a
persistent-backend cursor fails with `SQLITE_CORRUPT` exactly when the root
id is below 1; otherwise it succeeds, leaving the cursor bound to the
Tarantool backend in the `CURSOR_INVALID` state. -/
theorem sqlite3BtreeCursor_corrupt_iff (p : Btree) (iTable : Int)
    (wrFlag : Nat) (ki : Bool) (c : BtCursor)
    (htr : p.inTrans ≠ TransState.trNone)
    (hw : wrFlag ≠ 0 → p.inTrans = TransState.trWrite)
    (hz : c.curFlags = 0) :
    ((sqlite3BtreeCursor p iTable wrFlag ki c).1 = SQLITE_CORRUPT ↔
      iTable < 1) ∧
    (1 ≤ iTable →
      (sqlite3BtreeCursor p iTable wrFlag ki c).1 = SQLITE_OK ∧
      (sqlite3BtreeCursor p iTable wrFlag ki c).2.eState =
        CursorEState.invalid ∧
      (p.isMainDb = true →
        (sqlite3BtreeCursor p iTable wrFlag ki c).2.curFlags =
          BTCF_TaCursor)) := by
  by_cases hlt : iTable < 1
  · constructor
    · simp only [sqlite3BtreeCursor, if_pos hlt]
      exact iff_of_true trivial hlt
    · intro h
      omega
  · constructor
    · simp only [sqlite3BtreeCursor, if_neg hlt]
      by_cases hm : p.isMainDb <;>
        simp [hm, SQLITE_OK, SQLITE_CORRUPT, hlt]
    · intro _
      simp only [sqlite3BtreeCursor, if_neg hlt]
      by_cases hm : p.isMainDb <;>
        simp [hm, btreeCursor, hz, BTCF_TaCursor]

/-- Witness for `sqlite3BtreeCursor_corrupt_iff` at a concrete input: a
write cursor on root 3 of the main database under a write transaction opens
with `SQLITE_OK`, state `CURSOR_INVALID` and the `BTCF_TaCursor` tag. -/
theorem sqlite3BtreeCursor_corrupt_iff_w :
    (sqlite3BtreeCursor
        { inTrans := TransState.trWrite, isMainDb := true } 3 4 false
        { pgnoRoot := 0, hasKeyInfo := false, eState := CursorEState.invalid,
          curFlags := 0, skipNext := 0 }).1 = SQLITE_OK :=
  ((sqlite3BtreeCursor_corrupt_iff
      { inTrans := TransState.trWrite, isMainDb := true } 3 4 false
      { pgnoRoot := 0, hasKeyInfo := false, eState := CursorEState.invalid,
        curFlags := 0, skipNext := 0 }
      (by decide) (fun _ => rfl) rfl).2 (by decide)).1

/-- Claim C7 evaluated at the failing input: `sqlite3BtreeInsert` does
short-circuit on a `CURSOR_FAULT` cursor with the stored code, but
`sqlite3BtreeDelete` on the same faulted cursor dispatches to the backend
(result 0 here) instead of returning the stored fault code — the fault is
not sticky for every operation as the claim and the `CURSOR_FAULT` comment
of btreeInt.h require. -/
theorem btree_fault_sticky_violation :
    sqlite3BtreeInsert faultCursor 0 0 = faultCursor.skipNext ∧
    faultCursor.skipNext = 5 ∧
    faultCursor.eState = CursorEState.fault ∧
    sqlite3BtreeDelete faultCursor 0 0 = 0 ∧
    sqlite3BtreeDelete faultCursor 0 0 ≠ faultCursor.skipNext :=
  ⟨rfl, rfl, rfl, rfl, by decide⟩

/-- Claim C10: opening an ephemeral cursor performs no validation of the
root identifier — for every `iTable`, including values below 1, it returns
`SQLITE_OK` and never `SQLITE_CORRUPT`. -/
theorem sqlite3BtreeCursorEphemeral_ok (p : Btree) (iTable : Int)
    (wrFlag : Nat) (ki : Bool) (c : BtCursor) :
    (sqlite3BtreeCursorEphemeral p iTable wrFlag ki c).1 = SQLITE_OK ∧
    (sqlite3BtreeCursorEphemeral p iTable wrFlag ki c).1 ≠ SQLITE_CORRUPT :=
  ⟨rfl, by show SQLITE_OK ≠ SQLITE_CORRUPT; decide⟩

theorem beBytes_length (w n : Nat) : (beBytes w n).length = w := by
  induction w generalizing n with
  | zero => rfl
  | succ k ih => simp [beBytes, ih]

theorem mp_encode_uint_length (v : Nat) :
    (mp_encode_uint v).length = mp_sizeof_uint v := by
  unfold mp_encode_uint mp_sizeof_uint
  split_ifs <;> simp [beBytes_length]

theorem mp_encode_int_length_le (v : Int) : (mp_encode_int v).length ≤ 9 := by
  unfold mp_encode_int
  split_ifs <;> simp [beBytes_length]

theorem mp_sizeof_uint_le (v : Nat) : mp_sizeof_uint v ≤ 9 := by
  unfold mp_sizeof_uint
  split_ifs <;> omega

/-- Claim C8: a snapshot record for any u32 id and any int64 value — a
2-element array of the unsigned id and the sign-dependent value encoding —
never exceeds the precomputed bound `SEQUENCE_TUPLE_BUF_SIZE` (which equals
19 bytes), so the buffer-end assertion of `sequence_data_iterator_next`
always holds. -/
theorem sequence_data_tuple_size (id : Nat) (value : Int)
    (hid : id ≤ 4294967295)
    (h1 : INT64_MIN ≤ value) (h2 : value ≤ INT64_MAX) :
    SEQUENCE_TUPLE_BUF_SIZE = 19 ∧
    (sequence_data_tuple id value).length ≤ SEQUENCE_TUPLE_BUF_SIZE := by
  refine ⟨by decide, ?_⟩
  simp only [sequence_data_tuple, List.length_append]
  have ha : (mp_encode_array 2).length = 1 := rfl
  have hu : (mp_encode_uint id).length ≤ 5 := by
    rw [mp_encode_uint_length]
    unfold mp_sizeof_uint
    split_ifs <;> omega
  have hv : (if value ≥ 0 then mp_encode_uint value.toNat
      else mp_encode_int value).length ≤ 9 := by
    split_ifs with h
    · rw [mp_encode_uint_length]
      exact mp_sizeof_uint_le _
    · exact mp_encode_int_length_le _
  have hb : SEQUENCE_TUPLE_BUF_SIZE = 19 := by decide
  omega

/-- Witness for `sequence_data_tuple_size` at a concrete input: the record
for id 7 with value −100 fits in the buffer. -/
theorem sequence_data_tuple_size_w :
    (sequence_data_tuple 7 (-100)).length ≤ SEQUENCE_TUPLE_BUF_SIZE :=
  (sequence_data_tuple_size 7 (-100) (by decide) (by decide) (by decide)).2
